import Mathlib

/-!
Shallow embedding of the drip-check-backend HTTP service (src/server.js and
src/database.js) and proofs about its premium gate, rate limiter, sweep,
rewrite proxy output and usage recorder.

Time is modelled as milliseconds since the epoch (`Int`), calendar days as
their JavaScript `Date.toDateString()` strings, and the two in-memory
`Map`s (`premiumUsersCache`, `rateLimits`) as insertion-ordered association
lists with JavaScript `Map.get` / `Map.set` / `Map.delete` semantics.
External collaborators (the Postgres store, the LLM provider, the clock)
enter as explicit parameters.
-/

namespace DripCheck

/-- JavaScript `Map.get`: first (unique) binding of the key, or `none`. -/
def mapGet {V : Type} : List (String × V) → String → Option V
  | [], _ => none
  | (k', v') :: rest, k => if k' = k then some v' else mapGet rest k

/-- JavaScript `Map.set`: overwrite the binding in place, else append. -/
def mapSet {V : Type} : List (String × V) → String → V → List (String × V)
  | [], k, v => [(k, v)]
  | (k', v') :: rest, k, v =>
      if k' = k then (k, v) :: rest else (k', v') :: mapSet rest k v

/-- A JSON / JavaScript value as far as this backend inspects one. -/
inductive JSVal where
  | vstr (s : String)
  | vnum (n : Int)
  | vbool (b : Bool)
  | vnull
  | vundefined
  deriving DecidableEq, Repr

/-- JavaScript truthiness of the modelled values. -/
def truthy : JSVal → Bool
  | .vstr s => !(s = "")
  | .vnum n => !(n = 0)
  | .vbool b => b
  | .vnull => false
  | .vundefined => false

/-- JavaScript string coercion (template-literal interpolation). -/
def jsToString : JSVal → String
  | .vstr s => s
  | .vnum n => toString n
  | .vbool b => toString b
  | .vnull => "null"
  | .vundefined => "undefined"

/-- The guard `!userId || typeof userId !== 'string'` of `checkPremium`,
negated: `userId` is a non-empty string. -/
def validUserId : JSVal → Bool
  | .vstr s => !(s = "")
  | _ => false

/-- JavaScript `parseInt` in base 10: skip leading whitespace, optional
sign, then the longest leading run of decimal digits (trailing characters
ignored); `none` models `NaN`. -/
def parseIntJS (s : String) : Option Int :=
  let core : List Char → Option Nat := fun cs =>
    let ds := cs.takeWhile Char.isDigit
    if ds.isEmpty then none
    else some (ds.foldl (fun a c => a * 10 + (c.toNat - 48)) 0)
  match s.data.dropWhile Char.isWhitespace with
  | '-' :: rest => (core rest).map (fun n => -(n : Int))
  | '+' :: rest => (core rest).map (fun n => (n : Int))
  | cs => (core cs).map (fun n => (n : Int))

/-- `parseInt(premiumToken)` on a JSON value (coerced to a string first). -/
def parseIntV (v : JSVal) : Option Int :=
  parseIntJS (jsToString v)

/-- `RATE_LIMIT = 50` requests per day per user (src/server.js line 55). -/
def RATE_LIMIT : Nat := 50

/-- `CACHE_DURATION = 5 * 60 * 1000` ms (src/server.js line 59). -/
def CACHE_DURATION : Int := 5 * 60 * 1000

/-- One entry of `premiumUsersCache`: `{ isPremium, expires }`. -/
structure CacheEntry where
  isPremium : Bool
  expires : Int
  deriving DecidableEq, Repr

/-- The premium status cache map. -/
abbrev Cache : Type := List (String × CacheEntry)

/-- The rate limits map: key `rate:<userId>:<dateString>` to count. -/
abbrev RL : Type := List (String × Nat)

/-- The guard `cached && cached.expires > Date.now()`: the cached value
when a non-expired entry exists, `none` otherwise (fall through). -/
def cacheFresh (cache : Cache) (uid : String) (now : Int) : Option Bool :=
  match mapGet cache uid with
  | some e => if now < e.expires then some e.isPremium else none
  | none => none

/-- `checkPremium(userId, premiumToken)` of src/server.js lines 62-102:
validate `userId`, consult the cache, then the development shortcut, then
the 24-hour token-freshness branch, caching every resolved status. -/
def checkPremium (devMode : Bool) (now : Int) (cache : Cache)
    (userId premiumToken : JSVal) : Bool × Cache :=
  if !validUserId userId then (false, cache)
  else
    let uid := jsToString userId
    match cacheFresh cache uid now with
    | some b => (b, cache)
    | none =>
      if devMode && truthy premiumToken then
        (true, mapSet cache uid ⟨true, now + CACHE_DURATION⟩)
      else if truthy premiumToken &&
          (match parseIntV premiumToken with
           | some t => decide (now - t < 24 * 60 * 60 * 1000)
           | none => false) then
        (true, mapSet cache uid ⟨true, now + CACHE_DURATION⟩)
      else
        (false, mapSet cache uid ⟨false, now + CACHE_DURATION⟩)

/-- The external Postgres `users` table as `checkUserPremium` sees it:
`rows` maps a user id to its `subscription_status` row (or no row), and
`fails` makes every query throw. -/
structure StoreView where
  rows : String → Option String
  fails : Bool

/-- `checkUserPremium(userId)` of src/database.js lines 100-111:
`rows.length > 0 && subscription_status === 'active'`, `false` on error. -/
def checkUserPremium (db : StoreView) (userId : String) : Bool :=
  if db.fails then false
  else
    match db.rows userId with
    | some status => status = "active"
    | none => false

/-- `checkPremium(userId, premiumToken)` of the store-backed variant
(src/database.js related document, lines 211-232): validate, consult the
cache, else query the store via `checkUserPremium` and cache the result.
The third component records whether the store was queried. -/
def checkPremiumDB (now : Int) (db : StoreView) (cache : Cache)
    (userId premiumToken : JSVal) : Bool × Cache × Bool :=
  if !validUserId userId then (false, cache, false)
  else
    let uid := jsToString userId
    match cacheFresh cache uid now with
    | some b => (b, cache, false)
    | none =>
      let isP := checkUserPremium db uid
      (isP, mapSet cache uid ⟨isP, now + CACHE_DURATION⟩, true)

/-- Auxiliary for `strIncludes`: the first list is an initial run of the
second. -/
def startsWithL : List Char → List Char → Bool
  | [], _ => true
  | _ :: _, [] => false
  | a :: as, b :: bs => a = b && startsWithL as bs

/-- Auxiliary for `strIncludes`: the needle starts at some position of the
haystack. -/
def includesL (hay needle : List Char) : Bool :=
  match hay with
  | [] => needle.isEmpty
  | _ :: rest => startsWithL needle hay || includesL rest needle

/-- JavaScript `hay.includes(needle)`: substring containment. -/
def strIncludes (hay needle : String) : Bool :=
  includesL hay.data needle.data

/-- The hourly sweep of src/server.js lines 234-244: delete every
`rateLimits` key that contains `yesterday.toDateString()` as a substring. -/
def cleanupRateLimits (rateLimits : RL) (yesterdayKey : String) : RL :=
  rateLimits.filter (fun p => !strIncludes p.1 yesterdayKey)

/-- `logUsage(userId, action, metadata)` of src/database.js lines 130-140:
run the `INSERT INTO usage_logs` query (abstracted as `insertRow`) and
swallow any error — "Don't throw - logging shouldn't break the app". -/
def logUsage
    (insertRow : String → String → List (String × JSVal) → Except String Unit)
    (userId action : String) (metadata : List (String × JSVal)) :
    Except String Unit :=
  match insertRow userId action metadata with
  | .ok _ => .ok ()
  | .error _ => .ok ()

/-- The HTTP response of `POST /api/humanize`, by status code. -/
inductive HumanizeResp where
  | badRequest
  | notPremium
  | rateLimited
  | ok (humanizedText : String) (inputTokens outputTokens : Nat)
  | serverError
  deriving DecidableEq, Repr

/-- Result of one run of the `POST /api/humanize` handler: the response,
the two maps afterwards, and whether the LLM provider was called. -/
structure HumanizeOutcome where
  resp : HumanizeResp
  cache : Cache
  rateLimits : RL
  providerCalled : Bool
  deriving DecidableEq, Repr

/-- The `POST /api/humanize` handler of src/server.js lines 105-199
(prefilling variant). External inputs are explicit: `now` and `today` are
the clock (`Date.now()`, `new Date().toDateString()`), `provider` is the
Anthropic reply (`none` models a thrown provider error, otherwise the
completion text with input/output token counts), and `logIns` is the
store's outcome for this request's usage-log insert. -/
def humanize (devMode : Bool) (now : Int) (today : String)
    (provider : Option (String × Nat × Nat))
    (logIns : Except String Unit)
    (cache : Cache) (rateLimits : RL)
    (text userId currentScore premiumToken : JSVal) : HumanizeOutcome :=
  if !truthy text || !truthy userId then
    ⟨.badRequest, cache, rateLimits, false⟩
  else
    match checkPremium devMode now cache userId premiumToken with
    | (isPremium, cache') =>
      if !isPremium then ⟨.notPremium, cache', rateLimits, false⟩
      else
        let userKey := "rate:" ++ jsToString userId ++ ":" ++ today
        let currentCount := (mapGet rateLimits userKey).getD 0
        if RATE_LIMIT ≤ currentCount then
          ⟨.rateLimited, cache', rateLimits, false⟩
        else
          let rateLimits' := mapSet rateLimits userKey (currentCount + 1)
          match provider with
          | none => ⟨.serverError, cache', rateLimits', true⟩
          | some (completionText, inTok, outTok) =>
            let humanizedText := "I" ++ completionText
            match logUsage (fun _ _ _ => logIns) (jsToString userId)
                "humanize"
                [("inputLength", .vnum ((jsToString text).length : Int)),
                 ("outputLength", .vnum ((humanizedText.length : Int))),
                 ("score", currentScore),
                 ("isPremium", .vbool isPremium)] with
            | .error _ => ⟨.serverError, cache', rateLimits', true⟩
            | .ok _ => ⟨.ok humanizedText inTok outTok, cache', rateLimits', true⟩

/-- A store with no rows, used to instantiate store-generic theorems. -/
def storeEmpty : StoreView := ⟨fun _ => none, false⟩

/-- A store in which every user has `subscription_status = 'active'`. -/
def storeActive : StoreView := ⟨fun _ => some "active", false⟩

/-- Fixed first-50/51st-request scenario: user `u1` is cached premium for
the whole day, the clock and day string are constant, the provider
succeeds with reply `"ok"` and token counts 3/4. -/
def c1Cache : Cache := [("u1", ⟨true, 1000000000000000⟩)]

/-- One `POST /api/humanize` request of the fixed scenario, from a given
cache and rate-counter state. -/
def c1Step (st : Cache × RL) : HumanizeOutcome :=
  humanize false 1000 "Sat Oct 11 2026" (some ("ok", 3, 4)) (.ok ())
    st.1 st.2 (.vstr "hello") (.vstr "u1") (.vnum 20) .vundefined

/-- The server state after `n` requests of the fixed scenario. -/
def c1State : Nat → Cache × RL
  | 0 => (c1Cache, [])
  | n + 1 => ((c1Step (c1State n)).cache, (c1Step (c1State n)).rateLimits)

/-- The response to request number `n + 1` of the fixed scenario. -/
def c1Result (n : Nat) : HumanizeResp := (c1Step (c1State n)).resp

theorem mapGet_mapSet_self {V : Type} :
    ∀ (m : List (String × V)) (k : String) (v : V),
      mapGet (mapSet m k v) k = some v
  | [], _, _ => by simp [mapSet, mapGet]
  | (k', v') :: rest, k, v => by
    by_cases h : k' = k
    · simp [mapSet, mapGet, h]
    · simp [mapSet, mapGet, h, mapGet_mapSet_self rest k v]

theorem mapGet_mapSet_ne {V : Type} :
    ∀ (m : List (String × V)) (k k₀ : String) (v : V), k ≠ k₀ →
      mapGet (mapSet m k v) k₀ = mapGet m k₀
  | [], _, _, _, h => by simp [mapSet, mapGet, h]
  | (k', v') :: rest, k, k₀, v, h => by
    by_cases hk : k' = k
    · subst hk
      simp [mapSet, mapGet, h]
    · simp only [mapSet, hk, if_false]
      by_cases hk₀ : k' = k₀
      · simp [mapGet, hk₀]
      · simp [mapGet, hk₀, mapGet_mapSet_ne rest k k₀ v h]

theorem validUserId_truthy (u : JSVal) (h : validUserId u = true) :
    truthy u = true := by
  cases u <;> simp_all [validUserId, truthy]

/-- C4: when `userId` is not a non-empty string, both `checkPremium`
variants return `false` and leave the premium status cache untouched
(and the store-backed variant performs no store query). -/
theorem checkPremium_invalid_userId (devMode : Bool) (now : Int)
    (db : StoreView) (cache : Cache) (u tok : JSVal)
    (h : validUserId u = false) :
    checkPremium devMode now cache u tok = (false, cache) ∧
    checkPremiumDB now db cache u tok = (false, cache, false) := by
  constructor
  · simp [checkPremium, h]
  · simp [checkPremiumDB, h]

/-- C4 witness: `userId = 5` (a number, hence not a string) is rejected
with the cache intact by both variants. -/
theorem checkPremium_invalid_userId_witness :
    checkPremium false 0 [] (JSVal.vnum 5) JSVal.vundefined = (false, []) ∧
    checkPremiumDB 0 storeActive [] (JSVal.vnum 5) JSVal.vundefined
      = (false, [], false) :=
  checkPremium_invalid_userId false 0 storeActive [] (JSVal.vnum 5)
    JSVal.vundefined (by decide)

/-- C5: a `POST /api/humanize` request missing `text` or missing `userId`
returns 400 with the rate-counter map (and cache) unchanged and no
provider call. -/
theorem humanize_missing_fields (devMode : Bool) (now : Int) (today : String)
    (provider : Option (String × Nat × Nat)) (logIns : Except String Unit)
    (cache : Cache) (rateLimits : RL) (text u sc tok : JSVal)
    (h : text = JSVal.vundefined ∨ u = JSVal.vundefined) :
    humanize devMode now today provider logIns cache rateLimits text u sc tok
      = ⟨.badRequest, cache, rateLimits, false⟩ := by
  rcases h with h | h <;> subst h <;> simp [humanize, truthy]

/-- C5 witness: a body with no `text` field is answered 400, leaving a
nonempty rate-counter map untouched, with the provider not called. -/
theorem humanize_missing_fields_witness :
    humanize false 0 "Sat Oct 11 2026" (some ("ok", 3, 4)) (.ok ()) []
        [("rate:u1:Sat Oct 11 2026", 7)] JSVal.vundefined (JSVal.vstr "u1")
        (JSVal.vnum 20) JSVal.vundefined
      = ⟨.badRequest, [], [("rate:u1:Sat Oct 11 2026", 7)], false⟩ :=
  humanize_missing_fields false 0 "Sat Oct 11 2026" (some ("ok", 3, 4))
    (.ok ()) [] [("rate:u1:Sat Oct 11 2026", 7)] JSVal.vundefined
    (JSVal.vstr "u1") (JSVal.vnum 20) JSVal.vundefined (Or.inl rfl)

/-- C8: `logUsage` never raises to its caller — it returns `ok` for every
store outcome — and consequently the whole `POST /api/humanize` outcome
(response and state) is the same for any two usage-log insert outcomes. -/
theorem logUsage_never_raises :
    (∀ (insertRow : String → String → List (String × JSVal) →
          Except String Unit)
       (userId action : String) (metadata : List (String × JSVal)),
        logUsage insertRow userId action metadata = Except.ok ()) ∧
    (∀ (devMode : Bool) (now : Int) (today : String)
       (provider : Option (String × Nat × Nat))
       (o₁ o₂ : Except String Unit) (cache : Cache) (rateLimits : RL)
       (text u sc tok : JSVal),
        humanize devMode now today provider o₁ cache rateLimits text u sc tok
          = humanize devMode now today provider o₂ cache rateLimits
              text u sc tok) := by
  constructor
  · intro insertRow userId action metadata
    unfold logUsage
    cases insertRow userId action metadata <;> rfl
  · intro devMode now today provider o₁ o₂ cache rateLimits text u sc tok
    cases o₁ <;> cases o₂ <;> rfl

/-- C10: the store-backed `checkPremium` ignores `premiumToken` entirely —
any two token values give identical results from the same cache and store —
and it only answers premium when the cache held `true` or the store's
subscription status is active; a fresh token alone never grants premium. -/
theorem checkPremiumDB_token_independent :
    (∀ (now : Int) (db : StoreView) (cache : Cache) (u tok tok' : JSVal),
        checkPremiumDB now db cache u tok
          = checkPremiumDB now db cache u tok') ∧
    (∀ (now : Int) (db : StoreView) (cache : Cache) (u tok : JSVal),
        (checkPremiumDB now db cache u tok).1 = true →
        cacheFresh cache (jsToString u) now = some true ∨
        checkUserPremium db (jsToString u) = true) := by
  constructor
  · intro now db cache u tok tok'
    rfl
  · intro now db cache u tok h
    unfold checkPremiumDB at h
    by_cases hv : validUserId u = true
    · simp only [hv, Bool.not_true, Bool.false_eq_true, if_false] at h
      rcases hfresh : cacheFresh cache (jsToString u) now with _ | b
      · simp only [hfresh] at h
        exact Or.inr h
      · simp only [hfresh] at h
        subst h
        exact Or.inl rfl
    · simp [eq_false_of_ne_true hv] at h

/-- C10 witness: with an empty cache and a store whose status row is
active, the store-backed check grants premium for a reason that is the
cache or the store, never the token. -/
theorem checkPremiumDB_token_independent_witness :
    cacheFresh [] "u1" 0 = some true ∨ checkUserPremium storeActive "u1" = true :=
  checkPremiumDB_token_independent.2 0 storeActive [] (JSVal.vstr "u1")
    JSVal.vundefined (by decide)

theorem cacheFresh_of_get (cache : Cache) (uid : String) (now : Int)
    (e : CacheEntry) (h : mapGet cache uid = some e) (hlt : now < e.expires) :
    cacheFresh cache uid now = some e.isPremium := by
  simp [cacheFresh, h, hlt]

theorem cacheFresh_of_none (cache : Cache) (uid : String) (now : Int)
    (h : mapGet cache uid = none) : cacheFresh cache uid now = none := by
  simp [cacheFresh, h]

/-- C2: a non-expired cache entry is authoritative: both `checkPremium`
variants return its boolean unchanged with no store query and no token
evaluation, and after a cache-miss call resolves a status, a second call
within the TTL window returns the same boolean with no store query even if
the store has changed in between. -/
theorem checkPremium_cache_hit :
    (∀ (now : Int) (db : StoreView) (cache : Cache) (u tok : JSVal)
       (e : CacheEntry),
        validUserId u = true →
        mapGet cache (jsToString u) = some e →
        now < e.expires →
        checkPremiumDB now db cache u tok = (e.isPremium, cache, false)) ∧
    (∀ (devMode : Bool) (now : Int) (cache : Cache) (u tok : JSVal)
       (e : CacheEntry),
        validUserId u = true →
        mapGet cache (jsToString u) = some e →
        now < e.expires →
        checkPremium devMode now cache u tok = (e.isPremium, cache)) ∧
    (∀ (t₀ t₁ : Int) (db₁ db₂ : StoreView) (cache : Cache)
       (u tok tok' : JSVal),
        validUserId u = true →
        mapGet cache (jsToString u) = none →
        t₀ ≤ t₁ → t₁ < t₀ + CACHE_DURATION →
        checkPremiumDB t₁ db₂ (checkPremiumDB t₀ db₁ cache u tok).2.1 u tok'
          = ((checkPremiumDB t₀ db₁ cache u tok).1,
             (checkPremiumDB t₀ db₁ cache u tok).2.1, false)) := by
  refine ⟨?_, ?_, ?_⟩
  · intro now db cache u tok e hv hget hlt
    simp [checkPremiumDB, hv, cacheFresh_of_get cache (jsToString u) now e hget hlt]
  · intro devMode now cache u tok e hv hget hlt
    simp [checkPremium, hv, cacheFresh_of_get cache (jsToString u) now e hget hlt]
  · intro t₀ t₁ db₁ db₂ cache u tok tok' hv hnone h₀₁ hwin
    have hfresh₀ : cacheFresh cache (jsToString u) t₀ = none :=
      cacheFresh_of_none cache (jsToString u) t₀ hnone
    have h1st : checkPremiumDB t₀ db₁ cache u tok
        = (checkUserPremium db₁ (jsToString u),
           mapSet cache (jsToString u)
             ⟨checkUserPremium db₁ (jsToString u), t₀ + CACHE_DURATION⟩,
           true) := by
      simp [checkPremiumDB, hv, hfresh₀]
    rw [h1st]
    have hget : mapGet
        (mapSet cache (jsToString u)
          ⟨checkUserPremium db₁ (jsToString u), t₀ + CACHE_DURATION⟩)
        (jsToString u)
        = some ⟨checkUserPremium db₁ (jsToString u), t₀ + CACHE_DURATION⟩ :=
      mapGet_mapSet_self cache (jsToString u) _
    simp [checkPremiumDB, hv,
      cacheFresh_of_get _ (jsToString u) t₁ _ hget hwin]

/-- C2 witness: a fresh `true` entry is returned from the cache with no
store query by both variants, and a second call 1 ms after a miss returns
the first call's answer with no store query although the store flipped
from empty to all-active. -/
theorem checkPremium_cache_hit_witness :
    checkPremiumDB 100 storeEmpty [("u1", ⟨true, 200⟩)] (JSVal.vstr "u1")
        JSVal.vundefined = (true, [("u1", ⟨true, 200⟩)], false) ∧
    checkPremium false 100 [("u1", ⟨true, 200⟩)] (JSVal.vstr "u1")
        JSVal.vundefined = (true, [("u1", ⟨true, 200⟩)]) ∧
    checkPremiumDB 1 storeActive
        (checkPremiumDB 0 storeEmpty [] (JSVal.vstr "u1") JSVal.vundefined).2.1
        (JSVal.vstr "u1") JSVal.vundefined
      = ((checkPremiumDB 0 storeEmpty [] (JSVal.vstr "u1") JSVal.vundefined).1,
         (checkPremiumDB 0 storeEmpty [] (JSVal.vstr "u1") JSVal.vundefined).2.1,
         false) :=
  ⟨checkPremium_cache_hit.1 100 storeEmpty _ (JSVal.vstr "u1") JSVal.vundefined
      ⟨true, 200⟩ (by decide) (by decide) (by decide),
   checkPremium_cache_hit.2.1 false 100 _ (JSVal.vstr "u1") JSVal.vundefined
      ⟨true, 200⟩ (by decide) (by decide) (by decide),
   checkPremium_cache_hit.2.2 0 1 storeEmpty storeActive [] (JSVal.vstr "u1")
      JSVal.vundefined JSVal.vundefined (by decide) (by decide) (by decide) (by decide)⟩

/-- C9: in the token-freshness branch (valid user, expired-or-absent cache
entry, production mode, truthy token) `checkPremium` grants premium exactly
when `Date.now() - parseInt(premiumToken)` is below 24 hours; a token whose
embedded timestamp lies in the future is accepted, and a token that does
not parse as an integer is rejected. -/
theorem checkPremium_token_freshness (now : Int) (cache : Cache)
    (u tok : JSVal) (hv : validUserId u = true)
    (hmiss : cacheFresh cache (jsToString u) now = none)
    (ht : truthy tok = true) :
    ((checkPremium false now cache u tok).1 = true ↔
      ∃ t, parseIntV tok = some t ∧ now - t < 24 * 60 * 60 * 1000) ∧
    (parseIntV tok = none → (checkPremium false now cache u tok).1 = false) ∧
    (∀ t, parseIntV tok = some t → now < t →
      (checkPremium false now cache u tok).1 = true) := by
  rcases hparse : parseIntV tok with _ | t
  · refine ⟨?_, fun _ => ?_, ?_⟩
    · simp [checkPremium, hv, hmiss, ht, hparse]
    · simp [checkPremium, hv, hmiss, ht, hparse]
    · intro t hsome
      exact absurd hsome (by simp)
  · by_cases hage : now - t < 24 * 60 * 60 * 1000
    · have hage' : now - t < 86400000 := by omega
      have hres : (checkPremium false now cache u tok).1 = true := by
        simp [checkPremium, hv, hmiss, ht, hparse, hage']
      refine ⟨⟨fun _ => ⟨t, rfl, hage⟩, fun _ => hres⟩, ?_, fun _ _ _ => hres⟩
      intro hnone
      exact absurd hnone (by simp)
    · have hage' : ¬now - t < 86400000 := by omega
      have hres : (checkPremium false now cache u tok).1 = false := by
        simp [checkPremium, hv, hmiss, ht, hparse, hage']
      refine ⟨?_, fun _ => hres, ?_⟩
      · rw [hres]
        constructor
        · intro hfalse
          exact absurd hfalse (by simp)
        · rintro ⟨t', ht', hlt⟩
          injection ht' with he
          subst he
          exact absurd hlt hage
      · intro t' ht' hfut
        injection ht' with he
        subst he
        exfalso
        omega

/-- C9 witness: at `Date.now() = 1000` a token `"2000"` whose timestamp is
in the future grants premium from an empty cache in production mode. -/
theorem checkPremium_token_freshness_witness :
    (checkPremium false 1000 [] (JSVal.vstr "u1") (JSVal.vstr "2000")).1
      = true :=
  (checkPremium_token_freshness 1000 [] (JSVal.vstr "u1") (JSVal.vstr "2000")
      (by decide) (by decide) (by decide)).2.2 2000 (by decide) (by decide)

/-- C6: whenever the prefilling `POST /api/humanize` handler answers 200,
the returned `humanizedText` starts with the forced leading token: it is
the prefilled character `I` re-prepended to the provider's reply. -/
theorem humanize_ok_prefilled (devMode : Bool) (now : Int) (today : String)
    (provider : Option (String × Nat × Nat)) (logIns : Except String Unit)
    (cache : Cache) (rateLimits : RL) (text u sc tok : JSVal)
    (ht : String) (it ot : Nat)
    (h : (humanize devMode now today provider logIns cache rateLimits
            text u sc tok).resp = HumanizeResp.ok ht it ot) :
    ∃ rest, ht = "I" ++ rest := by
  unfold humanize at h
  dsimp only at h
  repeat' split at h
  all_goals simp at h
  all_goals exact ⟨_, h.1.symm⟩

/-- C6 witness: a successful run whose provider reply is `"ok"` returns
`humanizedText = "Iok"`, which is `"I"` prepended to the reply. -/
theorem humanize_ok_prefilled_witness : ∃ rest, "Iok" = "I" ++ rest :=
  humanize_ok_prefilled false 1000 "Sat Oct 11 2026" (some ("ok", 3, 4))
    (.ok ()) [("u1", ⟨true, 2000⟩)] [] (JSVal.vstr "hello")
    (JSVal.vstr "u1") (JSVal.vnum 20) JSVal.vundefined "Iok" 3 4 (by decide)

theorem checkPremium_true_valid (devMode : Bool) (now : Int) (cache : Cache)
    (u tok : JSVal) (h : (checkPremium devMode now cache u tok).1 = true) :
    validUserId u = true := by
  by_cases hv : validUserId u = true
  · exact hv
  · exfalso
    have hfalse : validUserId u = false := eq_false_of_ne_true hv
    unfold checkPremium at h
    simp [hfalse] at h

/-- The `rateLimits` map after one handler run: untouched, or — when the
counter was under the limit — the counter bumped by one. -/
theorem humanize_rateLimits_shape (devMode : Bool) (now : Int)
    (today : String) (provider : Option (String × Nat × Nat))
    (logIns : Except String Unit) (cache : Cache) (rateLimits : RL)
    (text u sc tok : JSVal) :
    (humanize devMode now today provider logIns cache rateLimits
        text u sc tok).rateLimits = rateLimits ∨
    ((mapGet rateLimits ("rate:" ++ jsToString u ++ ":" ++ today)).getD 0
        < RATE_LIMIT ∧
     (humanize devMode now today provider logIns cache rateLimits
        text u sc tok).rateLimits
       = mapSet rateLimits ("rate:" ++ jsToString u ++ ":" ++ today)
           ((mapGet rateLimits
              ("rate:" ++ jsToString u ++ ":" ++ today)).getD 0 + 1)) := by
  unfold humanize
  dsimp only
  repeat' split
  all_goals first
    | exact Or.inl rfl
    | exact Or.inr ⟨by omega, rfl⟩

theorem mapGet_cleanup :
    ∀ (rl : RL) (yk k : String),
      mapGet (cleanupRateLimits rl yk) k
        = if strIncludes k yk then none else mapGet rl k
  | [], yk, k => by
    by_cases h : strIncludes k yk = true <;>
      simp [cleanupRateLimits, mapGet, h]
  | (k', v') :: rest, yk, k => by
    have ih := mapGet_cleanup rest yk k
    by_cases hinc : strIncludes k' yk = true
    · have hdrop : cleanupRateLimits ((k', v') :: rest) yk
          = cleanupRateLimits rest yk := by
        simp [cleanupRateLimits, List.filter_cons, hinc]
      rw [hdrop, ih]
      by_cases hk : k' = k
      · subst hk
        simp [hinc]
      · by_cases hq : strIncludes k yk = true <;> simp [hq, mapGet, hk]
    · have hkeep : cleanupRateLimits ((k', v') :: rest) yk
          = (k', v') :: cleanupRateLimits rest yk := by
        simp [cleanupRateLimits, List.filter_cons, hinc]
      rw [hkeep]
      by_cases hk : k' = k
      · subst hk
        simp [mapGet, hinc]
      · simp [mapGet, hk, ih]

/-- C7: within a day the stored rate count is monotonic — one handler run
leaves every counter unchanged or bumps exactly one counter by one — the
handler preserves the bound `count ≤ 50`, and the only other mutation, the
hourly sweep, can only remove an entry, never alter its count. -/
theorem rate_counter_monotonic :
    (∀ (devMode : Bool) (now : Int) (today : String)
       (provider : Option (String × Nat × Nat)) (logIns : Except String Unit)
       (cache : Cache) (rateLimits : RL) (text u sc tok : JSVal)
       (k : String),
        (mapGet (humanize devMode now today provider logIns cache rateLimits
            text u sc tok).rateLimits k).getD 0
          = (mapGet rateLimits k).getD 0 ∨
        (mapGet (humanize devMode now today provider logIns cache rateLimits
            text u sc tok).rateLimits k).getD 0
          = (mapGet rateLimits k).getD 0 + 1) ∧
    (∀ (devMode : Bool) (now : Int) (today : String)
       (provider : Option (String × Nat × Nat)) (logIns : Except String Unit)
       (cache : Cache) (rateLimits : RL) (text u sc tok : JSVal),
        (∀ k, (mapGet rateLimits k).getD 0 ≤ 50) →
        ∀ k, (mapGet (humanize devMode now today provider logIns cache
            rateLimits text u sc tok).rateLimits k).getD 0 ≤ 50) ∧
    (∀ (rl : RL) (yk k : String),
        mapGet (cleanupRateLimits rl yk) k = mapGet rl k ∨
        mapGet (cleanupRateLimits rl yk) k = none) := by
  refine ⟨?_, ?_, ?_⟩
  · intro devMode now today provider logIns cache rateLimits text u sc tok k
    rcases humanize_rateLimits_shape devMode now today provider logIns cache
        rateLimits text u sc tok with heq | ⟨hlt, heq⟩
    · rw [heq]
      exact Or.inl rfl
    · rw [heq]
      by_cases hk : ("rate:" ++ jsToString u ++ ":" ++ today) = k
      · subst hk
        rw [mapGet_mapSet_self]
        exact Or.inr rfl
      · rw [mapGet_mapSet_ne rateLimits _ k _ hk]
        exact Or.inl rfl
  · intro devMode now today provider logIns cache rateLimits text u sc tok
      hb k
    rcases humanize_rateLimits_shape devMode now today provider logIns cache
        rateLimits text u sc tok with heq | ⟨hlt, heq⟩
    · rw [heq]
      exact hb k
    · rw [heq]
      by_cases hk : ("rate:" ++ jsToString u ++ ":" ++ today) = k
      · subst hk
        rw [mapGet_mapSet_self]
        simp only [Option.getD_some]
        have : RATE_LIMIT = 50 := rfl
        omega
      · rw [mapGet_mapSet_ne rateLimits _ k _ hk]
        exact hb k
  · intro rl yk k
    rw [mapGet_cleanup rl yk k]
    by_cases h : strIncludes k yk = true <;> simp [h]

/-- C7 witness: from an empty rate-counter map (all counts 0, hence all at
most 50), one handler run keeps the count for this user's key at most
50. -/
theorem rate_counter_monotonic_witness :
    (mapGet (humanize false 1000 "Sat Oct 11 2026" (some ("ok", 3, 4))
        (.ok ()) [("u1", ⟨true, 2000⟩)] [] (JSVal.vstr "hello")
        (JSVal.vstr "u1") (JSVal.vnum 20)
        JSVal.vundefined).rateLimits "rate:u1:Sat Oct 11 2026").getD 0 ≤ 50 :=
  rate_counter_monotonic.2.1 false 1000 "Sat Oct 11 2026" (some ("ok", 3, 4))
    (.ok ()) [("u1", ⟨true, 2000⟩)] [] (JSVal.vstr "hello")
    (JSVal.vstr "u1") (JSVal.vnum 20) JSVal.vundefined
    (by intro k; simp [mapGet]) "rate:u1:Sat Oct 11 2026"

/-- C3 counterexample: run the sweep at a moment whose "yesterday" string
is `Fri Oct 10 2026`. A counter keyed to `Thu Oct 09 2026` — a day older
than yesterday — survives the sweep, contradicting the claim that it is
removed; and a counter keyed to today (`Sat Oct 11 2026`) whose userId
embeds yesterday's string is removed, contradicting the claim that a
today-keyed counter never is. -/
theorem cleanup_sweep_counterexample :
    mapGet (cleanupRateLimits [("rate:u1:Thu Oct 09 2026", 3)]
        "Fri Oct 10 2026") "rate:u1:Thu Oct 09 2026" = some 3 ∧
    mapGet (cleanupRateLimits
        [("rate:xFri Oct 10 2026y:Sat Oct 11 2026", 2)] "Fri Oct 10 2026")
        "rate:xFri Oct 10 2026y:Sat Oct 11 2026" = none := by
  decide

/-- C3 (amended): a run of the hourly sweep removes exactly the counters
whose key string contains yesterday's day string: counters keyed to
yesterday's day are removed, counters keyed to days older than yesterday
are retained, and a counter keyed to today is retained provided its key
(including the userId part) does not contain yesterday's day string. -/
theorem cleanup_sweep_exact (rl : RL) (yesterdayKey k : String) :
    mapGet (cleanupRateLimits rl yesterdayKey) k
      = if strIncludes k yesterdayKey then none else mapGet rl k :=
  mapGet_cleanup rl yesterdayKey k

theorem humanize_rate_deny (devMode : Bool) (now : Int) (today : String)
    (provider : Option (String × Nat × Nat)) (logIns : Except String Unit)
    (cache : Cache) (rateLimits : RL) (text u sc tok : JSVal)
    (htext : truthy text = true)
    (hprem : (checkPremium devMode now cache u tok).1 = true)
    (hge : RATE_LIMIT ≤ (mapGet rateLimits
        ("rate:" ++ jsToString u ++ ":" ++ today)).getD 0) :
    humanize devMode now today provider logIns cache rateLimits text u sc tok
      = ⟨.rateLimited, (checkPremium devMode now cache u tok).2,
         rateLimits, false⟩ := by
  have hu : truthy u = true :=
    validUserId_truthy u (checkPremium_true_valid devMode now cache u tok hprem)
  have hcp : checkPremium devMode now cache u tok
      = (true, (checkPremium devMode now cache u tok).2) := by
    rw [← hprem]
  unfold humanize
  dsimp only
  rw [hcp]
  simp [htext, hu, hge]

theorem humanize_rate_allow (devMode : Bool) (now : Int) (today : String)
    (provider : Option (String × Nat × Nat)) (logIns : Except String Unit)
    (cache : Cache) (rateLimits : RL) (text u sc tok : JSVal)
    (htext : truthy text = true)
    (hprem : (checkPremium devMode now cache u tok).1 = true)
    (hlt : (mapGet rateLimits
        ("rate:" ++ jsToString u ++ ":" ++ today)).getD 0 < RATE_LIMIT) :
    (humanize devMode now today provider logIns cache rateLimits
        text u sc tok).rateLimits
      = mapSet rateLimits ("rate:" ++ jsToString u ++ ":" ++ today)
          ((mapGet rateLimits
             ("rate:" ++ jsToString u ++ ":" ++ today)).getD 0 + 1) ∧
    (∀ (t : String) (itk otk : Nat), provider = some (t, itk, otk) →
       (humanize devMode now today provider logIns cache rateLimits
          text u sc tok).resp = .ok ("I" ++ t) itk otk) := by
  have hu : truthy u = true :=
    validUserId_truthy u (checkPremium_true_valid devMode now cache u tok hprem)
  have hcp : checkPremium devMode now cache u tok
      = (true, (checkPremium devMode now cache u tok).2) := by
    rw [← hprem]
  have hnge : ¬RATE_LIMIT ≤ (mapGet rateLimits
      ("rate:" ++ jsToString u ++ ":" ++ today)).getD 0 := by omega
  constructor
  · unfold humanize
    dsimp only
    rw [hcp]
    rcases provider with _ | ⟨t, itk, otk⟩ <;>
      cases logIns <;> simp [htext, hu, hnge, logUsage]
  · intro t itk otk hp
    subst hp
    unfold humanize
    dsimp only
    rw [hcp]
    cases logIns <;> simp [htext, hu, hnge, logUsage]

set_option maxRecDepth 1000000 in
/-- C1: for every premium user and day string, the rate-limiting step of
`POST /api/humanize` reads the counter for `rate:<userId>:<day>` with
default 0; at or above the quota of 50 it answers 429 without touching the
counter, below it it increments the counter by one and (on provider
success) answers 200; consequently, in the fixed scenario each of the
first 50 requests of the day returns normal success and the 51st returns
429. -/
theorem humanize_daily_quota :
    (∀ (devMode : Bool) (now : Int) (today : String)
       (provider : Option (String × Nat × Nat)) (logIns : Except String Unit)
       (cache : Cache) (rateLimits : RL) (text u sc tok : JSVal),
        truthy text = true →
        (checkPremium devMode now cache u tok).1 = true →
        ((RATE_LIMIT ≤ (mapGet rateLimits
              ("rate:" ++ jsToString u ++ ":" ++ today)).getD 0 →
            humanize devMode now today provider logIns cache rateLimits
                text u sc tok
              = ⟨.rateLimited, (checkPremium devMode now cache u tok).2,
                 rateLimits, false⟩) ∧
         ((mapGet rateLimits
              ("rate:" ++ jsToString u ++ ":" ++ today)).getD 0 < RATE_LIMIT →
            (humanize devMode now today provider logIns cache rateLimits
                text u sc tok).rateLimits
              = mapSet rateLimits ("rate:" ++ jsToString u ++ ":" ++ today)
                  ((mapGet rateLimits
                     ("rate:" ++ jsToString u ++ ":" ++ today)).getD 0 + 1) ∧
            ∀ (t : String) (itk otk : Nat), provider = some (t, itk, otk) →
              (humanize devMode now today provider logIns cache rateLimits
                 text u sc tok).resp = .ok ("I" ++ t) itk otk))) ∧
    (∀ i, i < 50 → c1Result i = .ok "Iok" 3 4) ∧
    c1Result 50 = .rateLimited := by
  refine ⟨?_, by decide, by decide⟩
  intro devMode now today provider logIns cache rateLimits text u sc tok
    htext hprem
  exact ⟨fun hge => humanize_rate_deny devMode now today provider logIns
      cache rateLimits text u sc tok htext hprem hge,
    fun hlt => humanize_rate_allow devMode now today provider logIns
      cache rateLimits text u sc tok htext hprem hlt⟩

/-- C1 witness: with the counter already at 50, a request of the fixed
scenario is answered 429 with the counter untouched; request number 50
(the last of the first fifty) is answered 200. -/
theorem humanize_daily_quota_witness :
    humanize false 1000 "Sat Oct 11 2026" (some ("ok", 3, 4)) (.ok ())
        c1Cache [("rate:u1:Sat Oct 11 2026", 50)] (JSVal.vstr "hello")
        (JSVal.vstr "u1") (JSVal.vnum 20) JSVal.vundefined
      = ⟨.rateLimited,
         (checkPremium false 1000 c1Cache (JSVal.vstr "u1")
            JSVal.vundefined).2,
         [("rate:u1:Sat Oct 11 2026", 50)], false⟩ ∧
    c1Result 49 = .ok "Iok" 3 4 :=
  ⟨(humanize_daily_quota.1 false 1000 "Sat Oct 11 2026" (some ("ok", 3, 4))
      (.ok ()) c1Cache [("rate:u1:Sat Oct 11 2026", 50)] (JSVal.vstr "hello")
      (JSVal.vstr "u1") (JSVal.vnum 20) JSVal.vundefined (by decide)
      (by decide)).1 (by decide),
   humanize_daily_quota.2.1 49 (by decide)⟩

end DripCheck
